import Mathlib

/-!
Verification of the ipe option-list selection engine.

This file is a shallow embedding, in Lean, of the selection engine of the
`@ibyra/ipe` headless-widget library (`src/ipe-optlist.ts`), together with the
option primitive (`src/ipe-option.ts`), the disclosure primitive
(`src/ipe-disclosure.ts`) and the accordion specialization
(`src/ipe-accordion.ts`), and proofs about the embedded operations.

Modelling conventions:
- DOM option references are modelled by their position (a `Nat` index) in the
  owned `_options` array; the ownership test `this._options.includes(option)`
  becomes an index-bounds test, and `_selectedOptions` (an array of owned
  references) becomes a list of indices.
- JavaScript numbers stored in `_minLength`/`_maxLength` are either integers
  or `Infinity`; they are modelled as `Option Int` with `none` standing for
  `Infinity`.
- Side effects on the DOM (attribute reflection, ARIA mirrors, animations,
  `saveFormValue` pushing into `ElementInternals`) do not change any field of
  the modelled state and are dropped; event dispatch outcomes (whether some
  listener called `preventDefault`) enter as an explicit `cancel : Bool`
  argument, and the events dispatched by an operation are returned as a log.
- Fallible operations (the methods that `throw new TypeError`) return
  `Except String`.
-/

set_option linter.unusedVariables false

deriving instance DecidableEq for Except

namespace Ipe

/-- Embeds the `HTMLValueOption` data carried by `ipe-option` elements:
`value`, `disabled`, `selected` and the `defaultSelected` reset baseline. -/
structure ValueOption where
  value : String
  disabled : Bool
  selected : Bool
  defaultSelected : Bool
deriving Repr, DecidableEq, Inhabited

/-- Embeds the state of an `IpeOptlistElement` (with the fields inherited from
`IpeElementForm` and `IpeElementFormSingleValue` that the engine reads):
`_multiple`, `_required`, `_readOnly`, `_disabled`, `_name`, `_autocomplete`,
`_customError`, `_minLength`, `_maxLength` (`none` = `Infinity`), `_dirty`,
`_values`, `_options` and `_selectedOptions` (as indices into `_options`). -/
structure OptlistState where
  multiple : Bool
  required : Bool
  readOnly : Bool
  disabled : Bool
  name : String
  autocomplete : String
  customError : String
  minLength : Option Int
  maxLength : Option Int
  dirty : Bool
  values : List String
  options : List ValueOption
  selectedOptions : List Nat
deriving Repr, DecidableEq, Inhabited

/-- Embeds the loop body of `IpeOptlistElement.changeValues` that rebuilds
`_selectedOptions`: walking `_options` in order and collecting (the indices of)
the options whose `value` occurs in the new values list. -/
def selectedIdxsAux (values : List String) : List ValueOption → Nat → List Nat
  | [], _ => []
  | o :: rest, i =>
    if values.contains o.value then i :: selectedIdxsAux values rest (i + 1)
    else selectedIdxsAux values rest (i + 1)

/-- Embeds `IpeOptlistElement.getDefaultSelected`: the non-disabled owned
options with `defaultSelected` set. -/
def getDefaultSelected (st : OptlistState) : List ValueOption :=
  st.options.filter (fun o => !o.disabled && o.defaultSelected)

/-- Embeds `IpeOptlistElement.changeValues`: no change when the new list is
(deeply) equal to `_values`; otherwise store the new values, recompute
`_dirty` against the default selection, force every owned option's `selected`
flag to "its value occurs in the new list", and rebuild `_selectedOptions`.
Returns the changed-flag together with the new state. -/
def changeValues (st : OptlistState) (newValue : List String) :
    Bool × OptlistState :=
  if st.values = newValue then (false, st)
  else
    let defaultSelected := (getDefaultSelected st).map (fun o => o.value)
    let dirty := decide (newValue ≠ defaultSelected)
    let opts := st.options.map
      (fun o => { o with selected := newValue.contains o.value })
    let selIdxs := selectedIdxsAux newValue st.options 0
    (true, { st with
      values := newValue
      dirty := dirty
      options := opts
      selectedOptions := selIdxs })

/-- Embeds `IpeOptlistElement.selectValue`: compute the new values list from
`_multiple` and the select/deselect direction, then `changeValues` (the
`saveFormValue` call touches only the form internals, not the modelled state).
Note the deselect branch for `multiple` keeps the entries *equal* to `value`
(`this._values.filter((v) => v === value)`), exactly as the source does. -/
def selectValue (st : OptlistState) (value : String) (selected : Bool) :
    Bool × OptlistState :=
  let newValue : List String :=
    if selected then
      if st.multiple then st.values ++ [value] else [value]
    else
      if st.multiple then st.values.filter (fun v => v == value) else []
  changeValues st newValue

/-- Embeds the message of the `TypeError` thrown by `toggle`/`select`/
`deselect` on an option that is not owned by the list. -/
def ownershipError : String := "Option is not owned by this select."

/-- Embeds `IpeOptlistElement.select`: throw on a non-owned option, no-op when
the option is already in `_selectedOptions`, else select its value. -/
def select (st : OptlistState) (i : Nat) : Except String OptlistState :=
  match st.options[i]? with
  | none => .error ownershipError
  | some o =>
    if st.selectedOptions.contains i then .ok st
    else .ok (selectValue st o.value true).2

/-- Embeds `IpeOptlistElement.deselect`: throw on a non-owned option, no-op
when the option is not in `_selectedOptions`, else deselect its value. -/
def deselect (st : OptlistState) (i : Nat) : Except String OptlistState :=
  match st.options[i]? with
  | none => .error ownershipError
  | some o =>
    if ! st.selectedOptions.contains i then .ok st
    else .ok (selectValue st o.value false).2

/-- Embeds `IpeOptlistElement.toggle`: throw on a non-owned option, then
dispatch on the option's own `selected` flag. -/
def toggle (st : OptlistState) (i : Nat) : Except String OptlistState :=
  match st.options[i]? with
  | none => .error ownershipError
  | some o =>
    if o.selected then
      if ! st.selectedOptions.contains i then .ok st
      else .ok (selectValue st o.value false).2
    else
      if st.selectedOptions.contains i then .ok st
      else .ok (selectValue st o.value true).2

/-- Embeds `IpeOptlistElement.canSelect`: the gate consulted before honoring a
user-initiated selection change. -/
def canSelect (st : OptlistState) (selected : Bool) : Bool :=
  ! st.readOnly &&
    (selected || ! st.required || decide (st.selectedOptions.length > 1))

/-- Embeds the scan of `IpeOptlistElement.getFirst` (`find` of the first
non-disabled option), as the index of that option. -/
def firstEnabledIdx : List ValueOption → Option Nat
  | [] => none
  | o :: rest =>
    if o.disabled then (firstEnabledIdx rest).map (· + 1) else some 0

/-- Embeds the scan of `IpeOptlistElement.getLast` (`findLast` of the last
non-disabled option), as the index of that option. -/
def lastEnabledIdx : List ValueOption → Option Nat
  | [] => none
  | o :: rest =>
    match lastEnabledIdx rest with
    | some j => some (j + 1)
    | none => if o.disabled then none else some 0

/-- Embeds `IpeOptlistElement.getFirst` in the index-reference model. -/
def getFirst (st : OptlistState) : Option Nat :=
  firstEnabledIdx st.options

/-- Embeds `IpeOptlistElement.getLast` in the index-reference model. -/
def getLast (st : OptlistState) : Option Nat :=
  lastEnabledIdx st.options

/-- Embeds `IpeOptlistElement.nextOf`: `indexOf` the given reference (`-1`,
hence a scan from `0`, when it is not owned), scan forward for the first
non-disabled option, and fall back to the given option itself. -/
def nextOf (st : OptlistState) (i : Nat) : Nat :=
  let start := if i < st.options.length then i + 1 else 0
  match (firstEnabledIdx (st.options.drop start)).map (· + start) with
  | some j => j
  | none => i

/-- Embeds `IpeOptlistElement.previousOf`: scan downward from the position
before the given reference (no iteration at all when `indexOf` gave `-1`),
and fall back to the given option itself. -/
def previousOf (st : OptlistState) (i : Nat) : Nat :=
  if i < st.options.length then
    match lastEnabledIdx (st.options.take i) with
    | some j => j
    | none => i
  else i

/-- Reads the `disabled` flag of the owned option at index `k` (used to state
the navigation theorems). -/
def disabledAt (st : OptlistState) (k : Nat) : Bool :=
  (st.options.getD k default).disabled

/-- Embeds the validity flags assembled by
`IpeElementForm.getFormValidity` (the `customError` flag) and
`IpeOptlistElement.getFormValidity` (`valueMissing`, `tooShort`, `tooLong`). -/
structure ValidityFlags where
  customError : Bool
  valueMissing : Bool
  tooShort : Bool
  tooLong : Bool
deriving Repr, DecidableEq

/-- Comparison `this._maxLength < this._values.length` on a JavaScript number
that is an integer or `Infinity` (`none`); `Infinity < n` is false. -/
def maxLengthLt : Option Int → Nat → Bool
  | none, _ => false
  | some m, n => decide (m < (n : Int))

/-- Comparison `this._minLength > this._values.length` on a JavaScript number
that is an integer or `Infinity` (`none`); `Infinity > n` is true. -/
def minLengthGt : Option Int → Nat → Bool
  | none, _ => true
  | some m, n => decide ((n : Int) < m)

/-- Embeds `IpeOptlistElement.getFormValidity` (composed with the base
`IpeElementForm.getFormValidity`), keeping the flags only — the messages are
presentation data read off `dataset`. -/
def getFormValidity (st : OptlistState) : ValidityFlags :=
  { customError := decide (st.customError.length > 0)
    valueMissing := st.required && decide (st.values.length = 0)
    tooShort := st.multiple && minLengthGt st.minLength st.values.length
    tooLong :=
      (st.multiple && maxLengthLt st.maxLength st.values.length) ||
      (! st.multiple && decide (st.values.length > 1)) }

/-- Vocabulary of claim C7: the selected count of an option-list state is the
size of its stored selection, i.e. the length of the `_values` list. -/
def selectedCount (st : OptlistState) : Nat :=
  st.values.length

/-- Counts the owned options whose `selected` flag is set. -/
def countSelected (st : OptlistState) : Nat :=
  (st.options.filter (fun o => o.selected)).length

/-- Embeds the state of an `IpeOptionElement` (`src/ipe-option.ts`, the
lit-reactive variant): the `value`, `disabled` and `selected` properties. -/
structure OptionEl where
  value : String
  disabled : Bool
  selected : Bool
deriving Repr, DecidableEq, Inhabited

/-- Events an option or disclosure dispatches while (possibly) changing its
selected/open flag: the cancelable pre-change `beforetoggle` and the
informational post-change `toggle`, each carrying the old and new state. -/
inductive ToggleSignal
  | beforetoggle (oldState newState : Bool)
  | toggleEv (oldState newState : Bool)
deriving Repr, DecidableEq

/-- Embeds `IpeOptionElement.toggle`: a direct assignment of the `selected`
reactive property; no `beforetoggle`/`toggle` event is dispatched. -/

def optionToggle (o : OptionEl) : OptionEl × List ToggleSignal :=
  ({ o with selected := !o.selected }, [])

/-- Embeds `IpeOptionElement.select`: a direct assignment of `selected`;
no `beforetoggle`/`toggle` event is dispatched. -/
def optionSelect (o : OptionEl) : OptionEl × List ToggleSignal :=
  ({ o with selected := true }, [])

/-- Embeds `IpeOptionElement.deselect`: a direct assignment of `selected`;
no `beforetoggle`/`toggle` event is dispatched. -/
def optionDeselect (o : OptionEl) : OptionEl × List ToggleSignal :=
  ({ o with selected := false }, [])

/-- Embeds `IpeOptionElement.toggleSelected`, the user-interaction path
(click, Enter, Space): dispatch a cancelable `beforetoggle`; stop if some
listener cancelled it (`cancel`), else assign `selected` and dispatch the
informational `toggle`. -/
def toggleSelected (o : OptionEl) (cancel : Bool) :
    OptionEl × List ToggleSignal :=
  let newValue := !o.selected
  if cancel then (o, [.beforetoggle o.selected newValue])
  else
    ({ o with selected := newValue },
     [.beforetoggle o.selected newValue, .toggleEv o.selected newValue])

/-- Embeds the state of an `IpeDisclosureElement` that the selection engine
reads: the `_open` flag (`selected` mirrors it) and `_disabled`. -/
structure Disclosure where
  isOpen : Bool
  disabled : Bool
deriving Repr, DecidableEq, Inhabited

/-- Embeds `IpeDisclosureElement.changeOpen`: no-op when the value is
unchanged; otherwise dispatch a cancelable `beforetoggle` (old/new state),
stop if cancelled, else commit `_open` and dispatch the informational
`toggle` (the height animation only touches presentation). Returns the
changed-flag, the new state and the dispatched events. -/
def changeOpen (d : Disclosure) (cancel : Bool) (newValue : Bool) :
    Bool × Disclosure × List ToggleSignal :=
  if newValue = d.isOpen then (false, d, [])
  else if cancel then (false, d, [.beforetoggle d.isOpen newValue])
  else
    (true, { d with isOpen := newValue },
     [.beforetoggle d.isOpen newValue, .toggleEv d.isOpen newValue])

/-- Embeds `IpeDisclosureElement.toggle` (`changeOpen(!this._open)`). -/
def discToggle (d : Disclosure) (cancel : Bool) :
    Bool × Disclosure × List ToggleSignal :=
  changeOpen d cancel (!d.isOpen)

/-- Embeds `IpeDisclosureElement.select` (`changeOpen(true)`). -/
def discSelect (d : Disclosure) (cancel : Bool) :
    Bool × Disclosure × List ToggleSignal :=
  changeOpen d cancel true

/-- Embeds `IpeDisclosureElement.deselect` (`changeOpen(false)`). -/
def discDeselect (d : Disclosure) (cancel : Bool) :
    Bool × Disclosure × List ToggleSignal :=
  changeOpen d cancel false

/-- Embeds the state of an `IpeAccordionElement` that its selection policy
reads: `_disabled`, `_multiple`, `_required` and the owned disclosures. -/
structure AccordionState where
  disabled : Bool
  multiple : Bool
  required : Bool
  options : List Disclosure
deriving Repr, DecidableEq, Inhabited

/-- Embeds `IpeAccordionElement.getSelected`: the owned disclosures that are
non-disabled and selected (`selected` mirrors `open`). -/
def accordionGetSelected (acc : AccordionState) : List Disclosure :=
  acc.options.filter (fun o => !o.disabled && o.isOpen)

/-- Embeds `IpeAccordionElement.select`: it delegates to `option.select()`
directly, with no ownership test on the accordion's owned sequence. -/
def accordionSelect (acc : AccordionState) (d : Disclosure) (cancel : Bool) :
    Bool × Disclosure × List ToggleSignal :=
  discSelect d cancel

/-- Embeds `IpeAccordionElement.deselect`: delegates to `option.deselect()`
with no ownership test. -/
def accordionDeselect (acc : AccordionState) (d : Disclosure) (cancel : Bool) :
    Bool × Disclosure × List ToggleSignal :=
  discDeselect d cancel

/-- Embeds `IpeAccordionElement.toggle`: delegates to `option.toggle()`
with no ownership test. -/
def accordionToggle (acc : AccordionState) (d : Disclosure) (cancel : Bool) :
    Bool × Disclosure × List ToggleSignal :=
  discToggle d cancel

/-- Embeds `IpeAccordionElement.handleOptionBeforeToggle`, the pre-change gate
for disclosure toggles (newState `true` = the event's `'open'`, `false` =
`'closed'`): returns whether the gate calls `event.preventDefault()`. -/
def accordionBeforeToggleCancels (acc : AccordionState) (newState : Bool) :
    Bool :=
  if newState then false
  else if !acc.required then false
  else if decide ((accordionGetSelected acc).length > 1) then false
  else true

/-- Vocabulary of claim C8 taken from the spec's words: the number of owned
disclosures that are currently open, disabled or not. -/
def openCount (acc : AccordionState) : Nat :=
  (acc.options.filter (fun o => o.isOpen)).length

/-- Embeds `BooleanAttr.from`: a missing attribute yields the default, any
string yields `true`. -/
def booleanAttrFrom (defaultValue : Bool) : Option String → Bool
  | none => defaultValue
  | some _ => true

/-- Embeds `StringAttr.from`: a missing attribute yields the default, any
string yields itself. -/
def stringAttrFrom (defaultValue : String) : Option String → String
  | none => defaultValue
  | some s => s

/-- Value of a decimal digit character. -/
def digitVal (c : Char) : Option Nat :=
  if '0' ≤ c ∧ c ≤ '9' then some (c.toNat - '0'.toNat) else none

/-- Accumulates a decimal digit string into a number, failing on any
non-digit. -/
def parseDigits : List Char → Nat → Option Nat
  | [], acc => some acc
  | c :: cs, acc =>
    match digitVal c with
    | some d => parseDigits cs (acc * 10 + d)
    | none => none

/-- Models `Number.parseFloat` on the strings the engine itself produces for
these fields (optionally signed decimal integer strings); any other string is
`NaN` (`none`). -/
def parseInteger (s : String) : Option Int :=
  match s.data with
  | [] => none
  | '-' :: c :: cs => (parseDigits (c :: cs) 0).map (fun n => -(n : Int))
  | c :: cs => (parseDigits (c :: cs) 0).map (fun n => (n : Int))

/-- Embeds `IntegerAttr.from` on the numbers these fields can hold (integers
or `Infinity`, modelled as `none`): a missing attribute yields the default;
a string is parsed and truncated to an integer, a non-numeric string (whose
`parseFloat` is `NaN`, hence not finite) falls back to the default. -/
def integerAttrFrom (defaultValue : Option Int) : Option String → Option Int
  | none => defaultValue
  | some s =>
    match parseInteger s with
    | some n => some n
    | none => defaultValue

/-- Embeds `IpeElementForm.changeDisabled` restricted to the modelled state
(the attribute/ARIA reflection has no modelled field). -/
def changeDisabled (st : OptlistState) (newValue : Bool) :
    Bool × OptlistState :=
  if newValue = st.disabled then (false, st)
  else (true, { st with disabled := newValue })

/-- Embeds `IpeElementForm.changeReadOnly` restricted to the modelled state. -/
def changeReadOnly (st : OptlistState) (newValue : Bool) :
    Bool × OptlistState :=
  if newValue = st.readOnly then (false, st)
  else (true, { st with readOnly := newValue })

/-- Embeds `IpeElementForm.changeRequired` restricted to the modelled state. -/
def changeRequired (st : OptlistState) (newValue : Bool) :
    Bool × OptlistState :=
  if newValue = st.required then (false, st)
  else (true, { st with required := newValue })

/-- Embeds `IpeElementFormSingleValue.changeName` restricted to the modelled
state. -/
def changeName (st : OptlistState) (newValue : String) :
    Bool × OptlistState :=
  if newValue = st.name then (false, st)
  else (true, { st with name := newValue })

/-- Embeds `IpeElementFormSingleValue.changeAutocomplete` restricted to the
modelled state. -/
def changeAutocomplete (st : OptlistState) (newValue : String) :
    Bool × OptlistState :=
  if newValue = st.autocomplete then (false, st)
  else (true, { st with autocomplete := newValue })

/-- Embeds `IpeOptlistElement.changeMultiple` restricted to the modelled
state. -/
def changeMultiple (st : OptlistState) (newValue : Bool) :
    Bool × OptlistState :=
  if st.multiple = newValue then (false, st)
  else (true, { st with multiple := newValue })

/-- Embeds `IpeOptlistElement.changeMinLength` restricted to the modelled
state. -/
def changeMinLength (st : OptlistState) (newValue : Option Int) :
    Bool × OptlistState :=
  if newValue = st.minLength then (false, st)
  else (true, { st with minLength := newValue })

/-- Embeds `IpeOptlistElement.changeMaxLength` restricted to the modelled
state. -/
def changeMaxLength (st : OptlistState) (newValue : Option Int) :
    Bool × OptlistState :=
  if newValue = st.maxLength then (false, st)
  else (true, { st with maxLength := newValue })

/-- Embeds the full `attributeChangedCallback` chain run on an
`IpeOptlistElement` (`IpeElement`, a no-op, then `IpeElementForm`, then
`IpeElementFormSingleValue`, then the subclass's own branches). Each source
branch guards on one attribute name and returns, so the chain is an
if/else-if cascade; note the subclass's second branch repeats the comparison
with the `multiple` attribute name (`this._multipleAttr.name`) exactly as
`src/ipe-optlist.ts` line 217 does, although its body parses `minlength`. -/
def attributeChangedCallback (st : OptlistState) (nm : String)
    (newValue : Option String) : OptlistState :=
  if nm = "disabled" then (changeDisabled st (booleanAttrFrom false newValue)).2
  else if nm = "readonly" then
    (changeReadOnly st (booleanAttrFrom false newValue)).2
  else if nm = "required" then
    (changeRequired st (booleanAttrFrom false newValue)).2
  else if nm = "name" then (changeName st (stringAttrFrom "" newValue)).2
  else if nm = "autocomplete" then
    (changeAutocomplete st (stringAttrFrom "" newValue)).2
  else if nm = "multiple" then
    (changeMultiple st (booleanAttrFrom false newValue)).2
  else if nm = "multiple" then
    (changeMinLength st (integerAttrFrom (some 0) newValue)).2
  else if nm = "maxlength" then
    (changeMaxLength st (integerAttrFrom none newValue)).2
  else st

/-- Embeds the static `observedAttributes` chain of `IpeOptlistElement`:
`IpeElement` contributes none, `IpeElementForm` adds `disabled`, `readonly`,
`required`, `IpeElementFormSingleValue` adds `name`, `autocomplete`, and the
subclass adds `minlength`, `maxlength`. -/
def observedAttributes : List String :=
  ([] ++ ["disabled", "readonly", "required"] ++ ["name", "autocomplete"]) ++
    ["minlength", "maxlength"]

/-- Models a `FormData` object as its ordered list of (name, value) entries;
every value the engine stores is a string. -/
abbrev FormDataM := List (String × String)

/-- Embeds `FormData.get`: the value of the first entry with the name. -/
def fdGet (fd : FormDataM) (nm : String) : Option String :=
  (fd.find? (fun e => e.1 == nm)).map (fun e => e.2)

/-- Embeds `FormData.getAll`: the values of all entries with the name. -/
def fdGetAll (fd : FormDataM) (nm : String) : List String :=
  (fd.filter (fun e => e.1 == nm)).map (fun e => e.2)

/-- Embeds `FormData.delete`: removes every entry with the name. -/
def fdDelete (fd : FormDataM) (nm : String) : FormDataM :=
  fd.filter (fun e => e.1 != nm)

/-- Embeds `FormData.has`. -/
def fdHas (fd : FormDataM) (nm : String) : Bool :=
  fd.any (fun e => e.1 == nm)

/-- Embeds `FormData.set`: replaces the first entry with the name (dropping
later ones), or appends when absent. -/
def fdSet : FormDataM → String → String → FormDataM
  | [], nm, v => [(nm, v)]
  | e :: rest, nm, v =>
    if e.1 == nm then (nm, v) :: fdDelete rest nm
    else e :: fdSet rest nm v

/-- Embeds `FormData.append`. -/
def fdAppend (fd : FormDataM) (nm v : String) : FormDataM :=
  fd ++ [(nm, v)]

/-- Embeds `FData.set` specialized by a serializer `to` (the `FData.to` of the
concrete subclass): compare the serialized value with the current first entry;
delete on the default (`none`), store otherwise. -/
def fdataSet (nm : String) (toFn : α → Option String) (fd : FormDataM)
    (value : α) : FormDataM :=
  let newValue := toFn value
  let oldValue := fdGet fd nm
  if newValue == oldValue then fd
  else
    match newValue with
    | none => fdDelete fd nm
    | some s => fdSet fd nm s

/-- Embeds `BooleanFData.to`: `null` for the default, `'on'` otherwise. -/
def booleanFDataTo (defaultValue : Bool) (value : Bool) : Option String :=
  if value = defaultValue then none else some "on"

/-- Embeds `BooleanFData.from`: the default for a missing entry, else the
comparison with `'on'`. -/
def booleanFDataFrom (defaultValue : Bool) : Option String → Bool
  | none => defaultValue
  | some s => s == "on"

/-- Embeds `BooleanFData.get`. -/
def booleanFDataGet (nm : String) (defaultValue : Bool) (fd : FormDataM) :
    Bool :=
  booleanFDataFrom defaultValue (fdGet fd nm)

/-- Embeds `StringFData.to`: `null` for the default, the string otherwise. -/
def stringFDataTo (defaultValue : String) (value : String) : Option String :=
  if value = defaultValue then none else some value

/-- Embeds `StringFData.get`: the default for a missing entry, else the
entry itself. -/
def stringFDataGet (nm : String) (defaultValue : String) (fd : FormDataM) :
    String :=
  match fdGet fd nm with
  | none => defaultValue
  | some s => s

/-- Embeds `StringFData.getAll` for the `values` field: every stored entry is
a string and passes through `StringFData.from` unchanged. -/
def stringFDataGetAll (nm : String) (fd : FormDataM) : List String :=
  fdGetAll fd nm

/-- Embeds `FData.setAll` for `StringFData`: delete the name, then append the
serialization of each non-default value in order. -/
def stringFDataSetAll (nm : String) (defaultValue : String) (fd : FormDataM)
    (values : List String) : FormDataM :=
  values.foldl
    (fun acc v =>
      match stringFDataTo defaultValue v with
      | none => acc
      | some s => fdAppend acc nm s)
    (fdDelete fd nm)

/-- Embeds `IntegerFData.to` on integers-or-`Infinity`: `null` for the
default, `null` for the non-finite `Infinity`, else the decimal rendering. -/
def integerFDataTo (defaultValue : Option Int) (value : Option Int) :
    Option String :=
  if value = defaultValue then none
  else
    match value with
    | none => none
    | some n => some (toString n)

/-- Embeds `IntegerFData.from` on integers-or-`Infinity` (see
`integerAttrFrom` for the parsing model). -/
def integerFDataFrom (defaultValue : Option Int) : Option String → Option Int
  | none => defaultValue
  | some s =>
    match parseInteger s with
    | some n => some n
    | none => defaultValue

/-- Embeds `IntegerFData.get`. -/
def integerFDataGet (nm : String) (defaultValue : Option Int)
    (fd : FormDataM) : Option Int :=
  integerFDataFrom defaultValue (fdGet fd nm)

/-- Embeds `IpeOptlistElement.getFormState`, composed with
`IpeElementFormSingleValue.getFormState` and `IpeElementForm.getFormState`:
starting from an empty `FormData`, store `readonly`, `required`, `name`,
`autocomplete`, then `multiple`, `minlength`, `maxlength` and all `values`. -/
def getFormState (st : OptlistState) : FormDataM :=
  let state : FormDataM := []
  let state := fdataSet ("readonly") (booleanFDataTo false) state st.readOnly
  let state := fdataSet ("required") (booleanFDataTo false) state st.required
  let state := fdataSet ("name") (stringFDataTo "") state st.name
  let state := fdataSet ("autocomplete") (stringFDataTo "") state
    st.autocomplete
  let state := fdataSet ("multiple") (booleanFDataTo false) state st.multiple
  let state := fdataSet ("minlength") (integerFDataTo (some 0)) state
    st.minLength
  let state := fdataSet ("maxlength") (integerFDataTo none) state st.maxLength
  let state := stringFDataSetAll ("values") "" state st.values
  state

/-- Embeds `IpeOptlistElement.setFormState`, composed with the base-class
`setFormState` overrides: restore `readonly`, `required`, `name`,
`autocomplete`, `multiple`, then `minlength` — and then, exactly as
`src/ipe-optlist.ts` line 270 does, pass the parsed `maxlength` entry to
`changeMinLength` a second time (`changeMaxLength` is never called) — and
finally the selected `values`. -/
def setFormState (st : OptlistState) (state : FormDataM) : OptlistState :=
  let st := (changeReadOnly st (booleanFDataGet ("readonly") false state)).2
  let st := (changeRequired st (booleanFDataGet ("required") false state)).2
  let st := (changeName st (stringFDataGet ("name") "" state)).2
  let st := (changeAutocomplete st
    (stringFDataGet ("autocomplete") "" state)).2
  let st := (changeMultiple st (booleanFDataGet ("multiple") false state)).2
  let st := (changeMinLength st
    (integerFDataGet ("minlength") (some 0) state)).2
  let st := (changeMinLength st (integerFDataGet ("maxlength") none state)).2
  let st := (changeValues st (stringFDataGetAll ("values") state)).2
  st

/-- Builds an option-list state with the defaults an element starts from for
the fields that do not matter to the claims. -/
def mkState (multiple required readOnly : Bool) (minL maxL : Option Int)
    (values : List String) (options : List ValueOption) (sel : List Nat) :
    OptlistState :=
  { multiple := multiple, required := required, readOnly := readOnly
    disabled := false, name := "", autocomplete := "", customError := ""
    minLength := minL, maxLength := maxL, dirty := false
    values := values, options := options, selectedOptions := sel }

/-- A selected, enabled option with the given value. -/
def optSel (v : String) : ValueOption :=
  { value := v, disabled := false, selected := true, defaultSelected := false }

/-- An unselected, enabled option with the given value. -/
def optUnsel (v : String) : ValueOption :=
  { value := v, disabled := false, selected := false,
    defaultSelected := false }

/-- Multi-select list owning `A('a', selected)` and `B('b', selected)`. -/
def stC3 : OptlistState :=
  mkState true false false (some 0) none ["a", "b"]
    [optSel "a", optSel "b"] [0, 1]

/-- Multi-select list state with `minLength = 1`, `maxLength = 2` and the
value `'a'` selected, used to exercise the form-state round-trip. -/
def stC9 : OptlistState :=
  mkState true false false (some 1) (some 2) ["a"] [] []

/-- The same state with a different `maxLength`, showing that restoring a
snapshot never touches `_maxLength`. -/
def stC9b : OptlistState :=
  mkState true false false (some 1) (some 5) ["a"] [] []

/-- Required accordion owning one open-but-disabled disclosure and one open
enabled disclosure. -/
def accC8 : AccordionState :=
  { disabled := false, multiple := false, required := true
    options := [{ isOpen := true, disabled := true },
                { isOpen := true, disabled := false }] }

/-- Single-select, required list owning one selected option. -/
def stW1 : OptlistState :=
  mkState false true false (some 0) none ["a"] [optSel "a"] [0]

/-- Multi-select, required list owning one selected option. -/
def stW1m : OptlistState :=
  mkState true true false (some 0) none ["a"] [optSel "a"] [0]

/-- Single-select, required list owning exactly one selected option. -/
def stC1req : OptlistState :=
  mkState false true false (some 0) none ["a"] [optSel "a"] [0]

/-- List owning a single option, used to probe a foreign index. -/
def stW4 : OptlistState :=
  mkState false false false (some 0) none [] [optUnsel "a"] []

/-- An accordion owning nothing. -/
def accW4 : AccordionState :=
  { disabled := false, multiple := false, required := false, options := [] }

/-- An accordion owning one open disclosure. -/
def accW4b : AccordionState :=
  { disabled := false, multiple := true, required := true
    options := [{ isOpen := true, disabled := false }] }

/-- A closed disclosure not owned by either accordion above. -/
def dW4 : Disclosure := { isOpen := false, disabled := false }

/-- An accordion owning no disclosures at all. -/
def accC4 : AccordionState :=
  { disabled := false, multiple := false, required := false, options := [] }

/-- A closed disclosure, necessarily foreign to `accC4`. -/
def dC4 : Disclosure := { isOpen := false, disabled := false }

/-- A closed disclosure. -/
def d6W : Disclosure := { isOpen := false, disabled := false }

/-- An unselected plain option. -/
def o6C : OptionEl := { value := "a", disabled := false, selected := false }

/-- List owning `[a (enabled), b (disabled), c (enabled)]`. -/
def stW5 : OptlistState :=
  mkState false false false (some 0) none []
    [optUnsel "a",
     { value := "b", disabled := true, selected := false,
       defaultSelected := false },
     optUnsel "c"] []

/-- Bookkeeping invariant maintained by `changeValues`: every owned option's
`selected` flag agrees with membership of its value in `_values`. -/
def FlagsConsistent (st : OptlistState) : Prop :=
  ∀ o ∈ st.options, o.selected = st.values.contains o.value

instance (st : OptlistState) : Decidable (FlagsConsistent st) := by
  unfold FlagsConsistent
  infer_instance

/-- Runs a sequence of `select` calls, stopping at the first ownership
error. -/
def applySelects (st : OptlistState) : List Nat → Except String OptlistState
  | [] => .ok st
  | i :: rest =>
    match select st i with
    | .error e => .error e
    | .ok st' => applySelects st' rest

/-- Single-select list owning unselected options with values `a` and `b`. -/
def stW2 : OptlistState :=
  mkState false false false (some 0) none [] [optUnsel "a", optUnsel "b"] []

/-- Result of `select(A)` then `select(B)` on `stW2`. -/
def resW2 : OptlistState :=
  { multiple := false, required := false, readOnly := false
    disabled := false, name := "", autocomplete := "", customError := ""
    minLength := some 0, maxLength := none, dirty := true
    values := ["b"], options := [optUnsel "a", optSel "b"]
    selectedOptions := [1] }

/-- Single-select list owning two unselected options with the same value. -/
def stDupC2 : OptlistState :=
  mkState false false false (some 0) none [] [optUnsel "a", optUnsel "a"] []

/-- List state with `minLength = 1`, used to probe form-state restoration. -/
def stC10 : OptlistState :=
  mkState false false false (some 1) none [] [] []

/-- A restoration snapshot carrying a `maxlength` entry (as the browser hands
back on state restore). -/
def fdC10 : FormDataM := [("maxlength", "7")]

/-- Sanity check of the embedding on the spec's scenario: single-select list
`[A(selected), B, C]`; `select(B)` moves the selection to `B`. -/
example :
    (select
      { multiple := false, required := true, readOnly := false
        disabled := false, name := "", autocomplete := "", customError := ""
        minLength := some 0, maxLength := none, dirty := false
        values := ["a"]
        options :=
          [{ value := "a", disabled := false, selected := true,
             defaultSelected := true },
           { value := "b", disabled := false, selected := false,
             defaultSelected := false },
           { value := "c", disabled := false, selected := false,
             defaultSelected := false }]
        selectedOptions := [0] }
      1).map (fun s => (s.values, s.options.map (fun o => o.selected)))
    = .ok (["b"], [false, true, false]) := by decide

/-! Concrete fixtures used by witnesses and counterexamples. -/

/-- C3 (code_bug): on the multi-select list `[A('a') selected, B('b')
selected]`, `deselect(A)` keeps only `'a'` in the values list, leaves `A`
selected, and deselects `B`: the deselect branch of `selectValue` filters
`(v) => v === value`, keeping exactly the value it was asked to remove and
dropping every other selected value — the opposite of the claimed behavior
(and of `deselectOption` in the repository's earlier engine variant). -/
theorem claim_C3_deselect_keeps_only_target :
    (deselect stC3 0).map
        (fun s => (s.values, s.options.map (fun o => o.selected)))
      = .ok (["a"], [true, false]) := by
  decide

/-- C9 (code_bug): restoring the snapshot produced by `getFormState` does not
round-trip: `setFormState` passes the parsed `maxlength` entry to
`changeMinLength` (line 270 of `src/ipe-optlist.ts`), so `minLength` ends up
overwritten with the stored `maxLength` (1 becomes 2 here) and `maxLength`
itself is never restored (a state with `maxLength = 5` keeps 5 even though
the snapshot says 2). -/
theorem claim_C9_formstate_roundtrip_fails :
    (setFormState stC9 (getFormState stC9)).minLength = some 2 ∧
    stC9.minLength = some 1 ∧
    setFormState stC9 (getFormState stC9) ≠ stC9 ∧
    (setFormState stC9b (getFormState stC9)).maxLength = some 5 ∧
    (setFormState stC9 (getFormState stC9)).values = stC9.values ∧
    (setFormState stC9 (getFormState stC9)).multiple = stC9.multiple := by
  decide

/-- Helper for C10: `changeMinLength` always leaves `_minLength` equal to the
value it was handed (it either stores it or it was already stored). -/
lemma changeMinLength_minLength (st : OptlistState) (v : Option Int) :
    (changeMinLength st v).2.minLength = v := by
  unfold changeMinLength
  by_cases h : v = st.minLength
  · rw [if_pos h]
    exact h.symm
  · rw [if_neg h]

/-- Helper for C10: `changeValues` never touches `_minLength`. -/
lemma changeValues_minLength (st : OptlistState) (nv : List String) :
    (changeValues st nv).2.minLength = st.minLength := by
  unfold changeValues
  split <;> rfl

/-- C10 (corrected): `minlength` is listed among the observed attributes, yet
the attribute-change handler leaves the whole state unchanged on a `minlength`
change — the branch meant for it compares the name with the `multiple`
attribute name and sits behind the genuine `multiple` branch, so it is
unreachable. The attribute path is not, however, the only mutator besides the
`minLength` property setter and init: form-state restoration also calls
`changeMinLength` — once with the stored `minlength` entry and then again
with the stored `maxlength` entry (the line-270 slip) — so after
`setFormState` the `_minLength` field always equals the snapshot's parsed
`maxlength` entry. -/
theorem claim_C10_minlength_attribute_dead :
    (∀ (st : OptlistState) (v : Option String),
      attributeChangedCallback st "minlength" v = st) ∧
    "minlength" ∈ observedAttributes ∧
    (∀ (st : OptlistState) (fd : FormDataM),
      (setFormState st fd).minLength = integerFDataGet ("maxlength") none fd) := by
  refine ⟨?_, ?_, ?_⟩
  · intro st v
    rfl
  · decide
  · intro st fd
    simp only [setFormState, changeValues_minLength, changeMinLength_minLength]

/-- C10 counterexample: restoring a saved form-state snapshot also changes
`minLength` — here a restoration snapshot drives `minLength` from 1 to 7 (its
`maxlength` entry, via the line-270 slip) — so the minLength property setter
and init are not the only paths that change `minLength`, refuting the claim's
final conjunct as stated. -/
theorem claim_C10_counterexample :
    stC10.minLength = some 1 ∧
    (setFormState stC10 fdC10).minLength = some 7 := by
  decide

/-- C7 (confirmed): the derived validity flags are exactly as claimed, with
the selected count read as the size of the stored selection (`_values`):
`valueMissing` iff required and the values list is empty; `tooShort` iff
multiple and the selected count is below `minLength`; `tooLong` iff multiple
and the selected count exceeds `maxLength`, or not multiple and the selected
count exceeds 1. -/
theorem claim_C7_validity_flags (st : OptlistState) :
    ((getFormValidity st).valueMissing = true ↔
      st.required = true ∧ st.values = []) ∧
    ((getFormValidity st).tooShort = true ↔
      st.multiple = true ∧
        (st.minLength = none ∨
          ∃ m, st.minLength = some m ∧ (selectedCount st : Int) < m)) ∧
    ((getFormValidity st).tooLong = true ↔
      (st.multiple = true ∧
        ∃ m, st.maxLength = some m ∧ m < (selectedCount st : Int)) ∨
      (st.multiple = false ∧ 1 < selectedCount st)) := by
  refine ⟨?_, ?_, ?_⟩
  · simp [getFormValidity, List.length_eq_zero]
  · cases hm : st.minLength <;>
      simp [getFormValidity, minLengthGt, hm, selectedCount]
  · cases hM : st.maxLength <;> cases hmul : st.multiple <;>
      simp [getFormValidity, maxLengthLt, hM, hmul, selectedCount]

/-- C8 (corrected): the accordion's pre-change gate cancels a close exactly
when `required` holds and fewer than 2 *non-disabled* disclosures are
currently open (`getSelected` filters out disabled ones); it never cancels an
open. -/
theorem claim_C8_close_gate (acc : AccordionState) :
    (accordionBeforeToggleCancels acc false = true ↔
      acc.required = true ∧ (accordionGetSelected acc).length < 2) ∧
    accordionBeforeToggleCancels acc true = false := by
  constructor
  · unfold accordionBeforeToggleCancels
    cases hr : acc.required
    · simp [hr]
    · by_cases h : (accordionGetSelected acc).length > 1
      · simp [hr, h]
        omega
      · simp [hr, h]
        omega
  · rfl

/-- C8 counterexample: with `required` and two disclosures currently open —
one of them disabled — the gate still cancels the close, although the claim
says a close is allowed whenever at least 2 disclosures are open. -/
theorem claim_C8_counterexample :
    accC8.required = true ∧ openCount accC8 = 2 ∧
    ¬ (accC8.required = true ∧ openCount accC8 < 2) ∧
    accordionBeforeToggleCancels accC8 false = true := by
  decide

/-- C1 (corrected): with `required` and at most one selected option, the
user-interaction gate `canSelect(false)` refuses the deselection — but the
programmatic `deselect` method never consults the gate: with
`multiple=false` it clears the whole selection (values become empty and every
owned option is force-deselected); only with `multiple=true` does deselecting
the sole selected value happen to leave the values list unchanged. -/
theorem claim_C1_required_deselect_gate :
    (∀ st : OptlistState, st.required = true →
      st.selectedOptions.length ≤ 1 → canSelect st false = false) ∧
    (∀ (st : OptlistState) (i : Nat) (o : ValueOption),
      st.multiple = false → st.options[i]? = some o →
      st.selectedOptions.contains i = true → st.values ≠ [] →
      ∃ st', deselect st i = .ok st' ∧ st'.values = [] ∧
        ∀ p ∈ st'.options, p.selected = false) ∧
    (∀ (st : OptlistState) (i : Nat) (o : ValueOption),
      st.multiple = true → st.options[i]? = some o →
      st.values = [o.value] → deselect st i = .ok st) := by
  refine ⟨?_, ?_, ?_⟩
  · intro st h1 h2
    have h3 : ¬ (st.selectedOptions.length > 1) := by omega
    simp [canSelect, h1, h3]
  · intro st i o hm hio hc hv
    have hsel : selectValue st o.value false = changeValues st [] := by
      simp [selectValue, hm]
    have hmem : i ∈ st.selectedOptions := by simpa using hc
    refine ⟨(changeValues st []).2, ?_, ?_, ?_⟩
    · simp [deselect, hio, hmem, hsel]
    · unfold changeValues
      rw [if_neg hv]
    · unfold changeValues
      rw [if_neg hv]
      intro p hp
      simp only [List.mem_map] at hp
      obtain ⟨q, _, rfl⟩ := hp
      rfl
  · intro st i o hm hio hv
    cases hc : st.selectedOptions.contains i
    · have hmem : i ∉ st.selectedOptions := by simpa using hc
      simp [deselect, hio, hmem]
    · have hmem : i ∈ st.selectedOptions := by simpa using hc
      have hf : st.values.filter (fun v => v == o.value) = st.values := by
        rw [hv]
        simp
      simp [deselect, hio, hmem, selectValue, hm, hf, changeValues]

/-- Witness for C1: the gate refuses on a concrete required single-selection
state, while the programmatic `deselect` clears it; and the multi-select
sole-value case really is a no-op. -/
theorem claim_C1_required_deselect_gate_witness :
    canSelect stW1 false = false ∧
    (∃ st', deselect stW1 0 = .ok st' ∧ st'.values = [] ∧
      ∀ p ∈ st'.options, p.selected = false) ∧
    deselect stW1m 0 = .ok stW1m :=
  ⟨claim_C1_required_deselect_gate.1 stW1 rfl (by decide),
   claim_C1_required_deselect_gate.2.1 stW1 0 (optSel "a") rfl (by decide)
     (by decide) (by decide),
   claim_C1_required_deselect_gate.2.2 stW1m 0 (optSel "a") rfl (by decide)
     (by decide)⟩

/-- C1 counterexample: on a required single-select list with exactly one
selected option, `deselect` is *not* a no-op — it empties the values list
(and deselects the option), contradicting the claim. -/
theorem claim_C1_counterexample :
    stC1req.required = true ∧ stC1req.selectedOptions.length = 1 ∧
    stC1req.values = ["a"] ∧
    (deselect stC1req 0).map (fun s => s.values) = .ok [] ∧
    deselect stC1req 0 ≠ .ok stC1req := by
  decide

/-- C4 (corrected): the option-list engine raises the ownership `TypeError`
(leaving no state to observe) for `select`/`deselect`/`toggle` on any
non-owned reference; the accordion specialization, however, performs no
ownership test at all — its `select`/`deselect`/`toggle` ignore the owned
sequence entirely (the result is the same for any two accordion states) and
simply mutate the given disclosure, so a foreign disclosure is acted on
without any error. -/
theorem claim_C4_ownership_check :
    (∀ (st : OptlistState) (i : Nat), st.options.length ≤ i →
      select st i = .error ownershipError ∧
      deselect st i = .error ownershipError ∧
      toggle st i = .error ownershipError) ∧
    (∀ (acc acc' : AccordionState) (d : Disclosure) (c : Bool),
      accordionSelect acc d c = accordionSelect acc' d c ∧
      accordionDeselect acc d c = accordionDeselect acc' d c ∧
      accordionToggle acc d c = accordionToggle acc' d c) ∧
    (∀ (acc : AccordionState) (d : Disclosure), d.isOpen = false →
      ((accordionSelect acc d false).2.1).isOpen = true) := by
  refine ⟨?_, ?_, ?_⟩
  · intro st i h
    have h0 : st.options[i]? = none := List.getElem?_eq_none h
    exact ⟨by simp [select, h0], by simp [deselect, h0], by simp [toggle, h0]⟩
  · intro acc acc' d c
    exact ⟨rfl, rfl, rfl⟩
  · intro acc d h
    simp [accordionSelect, discSelect, changeOpen, h]

/-- Witness for C4 at concrete inputs: the engine throws on index 5 of a
1-option list; the accordion result is independent of the accordion state and
opens the foreign disclosure. -/
theorem claim_C4_ownership_check_witness :
    select stW4 5 = .error ownershipError ∧
    accordionSelect accW4 dW4 false = accordionSelect accW4b dW4 false ∧
    ((accordionSelect accW4 dW4 false).2.1).isOpen = true :=
  ⟨(claim_C4_ownership_check.1 stW4 5 (by decide)).1,
   (claim_C4_ownership_check.2.1 accW4 accW4b dW4 false).1,
   claim_C4_ownership_check.2.2 accW4 dW4 rfl⟩

/-- C4 counterexample: `select` on the accordion with a disclosure it does
not own raises nothing and is not ignored either — it opens the foreign
disclosure (the operation's type is not even fallible), contradicting the
claimed ownership-violation error for the accordion specialization. -/
theorem claim_C4_counterexample :
    accC4.options = [] ∧ dC4.isOpen = false ∧
    (accordionSelect accC4 dC4 false).1 = true ∧
    ((accordionSelect accC4 dC4 false).2.1).isOpen = true := by
  decide

/-- C6 (corrected): on the Disclosure, every `toggle`/`select`/`deselect`
that would change the flag goes through `changeOpen`, which raises the
cancelable `beforetoggle` before assignment, keeps the old value and raises
no further signal when cancelled, and raises the informational `toggle` after
an uncancelled assignment. On the plain Option, however, `toggle`/`select`/
`deselect` assign `selected` directly and dispatch no signal at all; the
cancelable protocol applies only to the user-interaction path
`toggleSelected`. -/
theorem claim_C6_prechange_signal :
    (∀ o : OptionEl,
      (optionSelect o).1.selected = true ∧ (optionSelect o).2 = [] ∧
      (optionDeselect o).1.selected = false ∧ (optionDeselect o).2 = [] ∧
      (optionToggle o).1.selected = !o.selected ∧ (optionToggle o).2 = []) ∧
    (∀ o : OptionEl,
      toggleSelected o true = (o, [.beforetoggle o.selected (!o.selected)]) ∧
      toggleSelected o false =
        ({ o with selected := !o.selected },
         [.beforetoggle o.selected (!o.selected),
          .toggleEv o.selected (!o.selected)])) ∧
    (∀ (d : Disclosure) (v : Bool), v ≠ d.isOpen →
      changeOpen d true v = (false, d, [.beforetoggle d.isOpen v]) ∧
      changeOpen d false v =
        (true, { d with isOpen := v },
         [.beforetoggle d.isOpen v, .toggleEv d.isOpen v])) ∧
    (∀ (d : Disclosure) (c : Bool), changeOpen d c d.isOpen = (false, d, [])) := by
  refine ⟨?_, ?_, ?_, ?_⟩
  · intro o
    exact ⟨rfl, rfl, rfl, rfl, rfl, rfl⟩
  · intro o
    exact ⟨rfl, rfl⟩
  · intro d v h
    constructor <;> simp [changeOpen, h]
  · intro d c
    simp [changeOpen]

/-- Witness for C6 on a concrete closed disclosure: opening it dispatches the
cancelable pre-change signal first, commits only when not cancelled, and the
informational signal follows the commit. -/
theorem claim_C6_prechange_signal_witness :
    changeOpen d6W true true = (false, d6W, [.beforetoggle false true]) ∧
    changeOpen d6W false true =
      (true, { d6W with isOpen := true },
       [.beforetoggle false true, .toggleEv false true]) :=
  ⟨(claim_C6_prechange_signal.2.2.1 d6W true (by decide)).1,
   (claim_C6_prechange_signal.2.2.1 d6W true (by decide)).2⟩

/-- C6 counterexample: the plain Option's `select()` changes `selected` from
false to true while dispatching no event at all — no cancelable pre-change
signal precedes the assignment, contradicting the claim for
`IpeOptionElement`. -/
theorem claim_C6_counterexample :
    o6C.selected = false ∧ (optionSelect o6C).1.selected = true ∧
    (optionSelect o6C).2 = [] := by
  decide

/-! Helper lemmas about the forward/backward scans of the navigation
primitives. -/

/-- A list whose members are all disabled has no first enabled index. -/
lemma firstEnabledIdx_none_of_all (l : List ValueOption)
    (h : ∀ k, k < l.length → (l.getD k default).disabled = true) :
    firstEnabledIdx l = none := by
  induction l with
  | nil => rfl
  | cons o rest ih =>
    have h0 : o.disabled = true := by simpa using h 0 (by simp)
    have hr : firstEnabledIdx rest = none := by
      apply ih
      intro k hk
      simpa using h (k + 1) (by simpa using Nat.succ_lt_succ hk)
    simp [firstEnabledIdx, h0, hr]

/-- When the forward scan finds nothing, every member is disabled. -/
lemma all_of_firstEnabledIdx_none (l : List ValueOption)
    (h : firstEnabledIdx l = none) :
    ∀ k, k < l.length → (l.getD k default).disabled = true := by
  induction l with
  | nil => intro k hk; simp at hk
  | cons o rest ih =>
    intro k hk
    by_cases hd : o.disabled
    · cases k with
      | zero => simpa using hd
      | succ k =>
        have hr : firstEnabledIdx rest = none := by
          simp only [firstEnabledIdx, hd, if_true] at h
          exact Option.map_eq_none'.mp h
        simpa using ih hr k (by simpa using Nat.lt_of_succ_lt_succ hk)
    · simp [firstEnabledIdx, hd] at h

/-- When the forward scan finds index `j`, it is in range, enabled, and every
index before it is disabled. -/
lemma firstEnabledIdx_some (l : List ValueOption) (j : Nat)
    (h : firstEnabledIdx l = some j) :
    j < l.length ∧ (l.getD j default).disabled = false ∧
      ∀ k, k < j → (l.getD k default).disabled = true := by
  induction l generalizing j with
  | nil => simp [firstEnabledIdx] at h
  | cons o rest ih =>
    by_cases hd : o.disabled
    · simp only [firstEnabledIdx, hd, if_true] at h
      obtain ⟨j', hj', rfl⟩ := Option.map_eq_some'.mp h
      obtain ⟨h1, h2, h3⟩ := ih j' hj'
      refine ⟨by simpa using Nat.succ_lt_succ h1, by simpa using h2, ?_⟩
      intro k hk
      cases k with
      | zero => simpa using hd
      | succ k => simpa using h3 k (by omega)
    · simp [firstEnabledIdx, hd] at h
      subst h
      refine ⟨by simp, by simpa using hd, ?_⟩
      intro k hk
      exact absurd hk (Nat.not_lt_zero k)

/-- A list whose members are all disabled has no last enabled index. -/
lemma lastEnabledIdx_none_of_all (l : List ValueOption)
    (h : ∀ k, k < l.length → (l.getD k default).disabled = true) :
    lastEnabledIdx l = none := by
  induction l with
  | nil => rfl
  | cons o rest ih =>
    have h0 : o.disabled = true := by simpa using h 0 (by simp)
    have hr : lastEnabledIdx rest = none := by
      apply ih
      intro k hk
      simpa using h (k + 1) (by simpa using Nat.succ_lt_succ hk)
    simp [lastEnabledIdx, hr, h0]

/-- When the backward scan finds nothing, every member is disabled. -/
lemma lastEnabledIdx_none_all (l : List ValueOption)
    (h : lastEnabledIdx l = none) :
    ∀ k, k < l.length → (l.getD k default).disabled = true := by
  induction l with
  | nil => intro k hk; simp at hk
  | cons o rest ih =>
    intro k hk
    cases hr : lastEnabledIdx rest with
    | some j => simp [lastEnabledIdx, hr] at h
    | none =>
      have hd : o.disabled = true := by
        simp only [lastEnabledIdx, hr] at h
        by_cases hd : o.disabled
        · exact hd
        · simp [hd] at h
      cases k with
      | zero => simpa using hd
      | succ k =>
        simpa using ih hr k (by simpa using Nat.lt_of_succ_lt_succ hk)

/-- When the backward scan finds index `j`, it is in range, enabled, and
every index after it is disabled. -/
lemma lastEnabledIdx_some (l : List ValueOption) (j : Nat)
    (h : lastEnabledIdx l = some j) :
    j < l.length ∧ (l.getD j default).disabled = false ∧
      ∀ k, j < k → k < l.length → (l.getD k default).disabled = true := by
  induction l generalizing j with
  | nil => simp [lastEnabledIdx] at h
  | cons o rest ih =>
    cases hr : lastEnabledIdx rest with
    | some j' =>
      simp only [lastEnabledIdx, hr, Option.some.injEq] at h
      subst h
      obtain ⟨h1, h2, h3⟩ := ih j' hr
      refine ⟨by simpa using Nat.succ_lt_succ h1, by simpa using h2, ?_⟩
      intro k hk1 hk2
      cases k with
      | zero => omega
      | succ k =>
        simpa using h3 k (by omega) (by simpa using Nat.lt_of_succ_lt_succ hk2)
    | none =>
      simp only [lastEnabledIdx, hr] at h
      by_cases hd : o.disabled
      · simp [hd] at h
      · simp [hd] at h
        subst h
        refine ⟨by simp, by simpa using hd, ?_⟩
        intro k hk1 hk2
        cases k with
        | zero => omega
        | succ k =>
          have hall := lastEnabledIdx_none_all rest hr k
            (by simpa using Nat.lt_of_succ_lt_succ hk2)
          simpa using hall

/-- `getD` after `drop` reads the shifted index. -/
lemma getD_drop (l : List ValueOption) : ∀ (s t : Nat),
    (l.drop s).getD t default = l.getD (s + t) default := by
  induction l with
  | nil => intro s t; simp
  | cons o rest ih =>
    intro s t
    cases s with
    | zero => simp
    | succ s =>
      rw [List.drop_succ_cons, ih s t, Nat.succ_add, List.getD_cons_succ]

/-- `getD` inside the taken prefix reads the original index. -/
lemma getD_take (l : List ValueOption) : ∀ (s k : Nat), k < s →
    (l.take s).getD k default = l.getD k default := by
  induction l with
  | nil => intro s k _; simp
  | cons o rest ih =>
    intro s k hk
    cases s with
    | zero => omega
    | succ s =>
      cases k with
      | zero => simp
      | succ k => simpa using ih s k (by omega)

/-- C5 (confirmed): for every owned option, `nextOf` returns the nearest
non-disabled owned option strictly after it in sequence order, or the option
itself when none exists (no null, no wraparound); symmetrically for
`previousOf`; and in particular `nextOf` of `getLast` and `previousOf` of
`getFirst` are fixed points. -/
theorem claim_C5_saturating_navigation (st : OptlistState) :
    (∀ i, i < st.options.length →
      (nextOf st i = i ∧
        ∀ k, i < k → k < st.options.length → disabledAt st k = true) ∨
      (i < nextOf st i ∧ nextOf st i < st.options.length ∧
        disabledAt st (nextOf st i) = false ∧
        ∀ k, i < k → k < nextOf st i → disabledAt st k = true)) ∧
    (∀ i, i < st.options.length →
      (previousOf st i = i ∧ ∀ k, k < i → disabledAt st k = true) ∨
      (previousOf st i < i ∧ disabledAt st (previousOf st i) = false ∧
        ∀ k, previousOf st i < k → k < i → disabledAt st k = true)) ∧
    (∀ l, getLast st = some l → nextOf st l = l) ∧
    (∀ f, getFirst st = some f → previousOf st f = f) := by
  refine ⟨?_, ?_, ?_, ?_⟩
  · intro i hi
    cases h : firstEnabledIdx (st.options.drop (i + 1)) with
    | none =>
      have hnext : nextOf st i = i := by simp [nextOf, hi, h]
      left
      refine ⟨hnext, ?_⟩
      intro k hk1 hk2
      have hlen : k - (i + 1) < (st.options.drop (i + 1)).length := by
        rw [List.length_drop]
        omega
      have hd := all_of_firstEnabledIdx_none _ h (k - (i + 1)) hlen
      rw [getD_drop] at hd
      have he : (i + 1) + (k - (i + 1)) = k := by omega
      rw [he] at hd
      simpa [disabledAt] using hd
    | some t =>
      have hnext : nextOf st i = t + (i + 1) := by simp [nextOf, hi, h]
      obtain ⟨h1, h2, h3⟩ := firstEnabledIdx_some _ t h
      rw [List.length_drop] at h1
      rw [getD_drop] at h2
      right
      rw [hnext]
      refine ⟨by omega, by omega, ?_, ?_⟩
      · have hcomm : t + (i + 1) = (i + 1) + t := by omega
        rw [hcomm]
        simpa [disabledAt] using h2
      · intro k hk1 hk2
        have hu := h3 (k - (i + 1)) (by omega)
        rw [getD_drop] at hu
        have he : (i + 1) + (k - (i + 1)) = k := by omega
        rw [he] at hu
        simpa [disabledAt] using hu
  · intro i hi
    cases h : lastEnabledIdx (st.options.take i) with
    | none =>
      have hprev : previousOf st i = i := by simp [previousOf, hi, h]
      left
      refine ⟨hprev, ?_⟩
      intro k hk
      have hlen : k < (st.options.take i).length := by
        rw [List.length_take]
        omega
      have hd := lastEnabledIdx_none_all _ h k hlen
      rw [getD_take st.options i k hk] at hd
      simpa [disabledAt] using hd
    | some j =>
      have hprev : previousOf st i = j := by simp [previousOf, hi, h]
      obtain ⟨h1, h2, h3⟩ := lastEnabledIdx_some _ j h
      rw [List.length_take] at h1
      rw [getD_take st.options i j (by omega)] at h2
      right
      rw [hprev]
      refine ⟨by omega, ?_, ?_⟩
      · simpa [disabledAt] using h2
      · intro k hk1 hk2
        have hu := h3 k hk1 (by rw [List.length_take]; omega)
        rw [getD_take st.options i k hk2] at hu
        simpa [disabledAt] using hu
  · intro l hl
    obtain ⟨h1, h2, h3⟩ := lastEnabledIdx_some _ l (by simpa [getLast] using hl)
    have hnone : firstEnabledIdx (st.options.drop (l + 1)) = none := by
      apply firstEnabledIdx_none_of_all
      intro t ht
      rw [List.length_drop] at ht
      rw [getD_drop]
      exact h3 ((l + 1) + t) (by omega) (by omega)
    simp [nextOf, h1, hnone]
  · intro f hf
    obtain ⟨h1, h2, h3⟩ := firstEnabledIdx_some _ f (by simpa [getFirst] using hf)
    have hnone : lastEnabledIdx (st.options.take f) = none := by
      apply lastEnabledIdx_none_of_all
      intro k hk
      rw [List.length_take] at hk
      rw [getD_take st.options f k (by omega)]
      exact h3 k (by omega)
    simp [previousOf, h1, hnone]

/-- Witness for C5 on a concrete list: `nextOf` saturates at the last
non-disabled option and `previousOf` at the first. -/
theorem claim_C5_saturating_navigation_witness :
    nextOf stW5 2 = 2 ∧ previousOf stW5 0 = 0 :=
  ⟨(claim_C5_saturating_navigation stW5).2.2.1 2 (by decide),
   (claim_C5_saturating_navigation stW5).2.2.2 0 (by decide)⟩

/-- A successful `select` on a single-select list with at most one stored
value preserves single-selectness, the one-value bound, flag consistency, and
the owned options' values. -/
lemma select_preserves (st st' : OptlistState) (i : Nat)
    (hm : st.multiple = false) (hlen : st.values.length ≤ 1)
    (hfl : FlagsConsistent st) (h : select st i = .ok st') :
    st'.multiple = false ∧ st'.values.length ≤ 1 ∧ FlagsConsistent st' ∧
      st'.options.map (fun o => o.value) =
        st.options.map (fun o => o.value) := by
  unfold select at h
  split at h
  · exact absurd h (by simp)
  next o heq =>
    split at h
    · injection h with h'
      subst h'
      exact ⟨hm, hlen, hfl, rfl⟩
    · injection h with h'
      subst h'
      have hsv : selectValue st o.value true = changeValues st [o.value] := by
        simp [selectValue, hm]
      rw [hsv]
      unfold changeValues
      by_cases hv : st.values = [o.value]
      · rw [if_pos hv]
        exact ⟨hm, hlen, hfl, rfl⟩
      · rw [if_neg hv]
        refine ⟨hm, by simp, ?_, ?_⟩
        · intro p hp
          simp only [List.mem_map] at hp
          obtain ⟨q, hq, rfl⟩ := hp
          rfl
        · simp only [List.map_map]
          rfl

/-- `applySelects` preserves the single-selection invariant along the whole
sequence. -/
lemma applySelects_preserves (l : List Nat) : ∀ (st st' : OptlistState),
    st.multiple = false → st.values.length ≤ 1 → FlagsConsistent st →
    applySelects st l = .ok st' →
    st'.multiple = false ∧ st'.values.length ≤ 1 ∧ FlagsConsistent st' ∧
      st'.options.map (fun o => o.value) =
        st.options.map (fun o => o.value) := by
  induction l with
  | nil =>
    intro st st' hm hlen hfl h
    injection h with h'
    subst h'
    exact ⟨hm, hlen, hfl, rfl⟩
  | cons i rest ih =>
    intro st st' hm hlen hfl h
    unfold applySelects at h
    split at h
    · exact absurd h (by simp)
    next st1 heq =>
      obtain ⟨m1, l1, f1, v1⟩ := select_preserves st st1 i hm hlen hfl heq
      obtain ⟨m2, l2, f2, v2⟩ := ih st1 st' m1 l1 f1 h
      exact ⟨m2, l2, f2, v2.trans v1⟩

/-- With consistent flags, at most one stored value, and pairwise-distinct
owned values, at most one owned option is selected. -/
lemma countSelected_le_one (st : OptlistState) (hlen : st.values.length ≤ 1)
    (hfl : FlagsConsistent st)
    (hnd : (st.options.map (fun o => o.value)).Nodup) :
    countSelected st ≤ 1 := by
  unfold countSelected
  have hfe : st.options.filter (fun o => o.selected) =
      st.options.filter (fun o => st.values.contains o.value) :=
    List.filter_congr (fun o ho => by rw [hfl o ho])
  rw [hfe]
  cases hv : st.values with
  | nil => simp
  | cons v rest =>
    have hrest : rest = [] := by
      rw [hv] at hlen
      simpa using hlen
    subst hrest
    have h1 : (st.options.filter (fun o => [v].contains o.value)).length =
        List.countP (fun o => o.value == v) st.options := by
      rw [List.countP_eq_length_filter]
      congr 1
      apply List.filter_congr
      intro o _
      rw [Bool.eq_iff_iff]
      simp [List.contains]
    rw [h1]
    have h2 : List.countP (fun o => o.value == v) st.options =
        List.count v (st.options.map (fun o => o.value)) := by
      rw [List.count, List.countP_map]
      rfl
    rw [h2]
    exact List.nodup_iff_count_le_one.mp hnd v

/-- C2 (corrected): on a single-select list, starting from a state with at
most one stored value and consistent flags, any sequence of `select` calls
keeps the stored selection at most a single value; provided the owned
options' values are pairwise distinct, at most one owned option has
`selected=true`. (Selecting an option force-selects every owned option
sharing its value — see the counterexample with duplicated values.) -/
theorem claim_C2_single_select_exclusivity (st st' : OptlistState)
    (l : List Nat) (hm : st.multiple = false)
    (hlen : st.values.length ≤ 1) (hfl : FlagsConsistent st)
    (h : applySelects st l = .ok st') :
    st'.values.length ≤ 1 ∧
      ((st.options.map (fun o => o.value)).Nodup → countSelected st' ≤ 1) := by
  obtain ⟨m, hl, hf, hv⟩ := applySelects_preserves l st st' hm hlen hfl h
  refine ⟨hl, fun hnd => countSelected_le_one st' hl hf ?_⟩
  rw [hv]
  exact hnd

/-- Witness for C2 on a concrete run: selecting `A` then `B` on a two-option
single-select list with distinct values leaves at most one option selected. -/
theorem claim_C2_single_select_exclusivity_witness :
    countSelected resW2 ≤ 1 :=
  (claim_C2_single_select_exclusivity stW2 resW2 [0, 1] rfl (by decide)
    (by decide) (by decide)).2 (by decide)

/-- C2 counterexample: on a single-select list owning two options with equal
values, one `select` call leaves **two** owned options with `selected=true`
(`changeValues` force-selects every option whose value occurs in the stored
values list), refuting the claim as stated. -/
theorem claim_C2_counterexample :
    stDupC2.multiple = false ∧ countSelected stDupC2 = 0 ∧
    (select stDupC2 0).map countSelected = .ok 2 := by
  decide

end Ipe
